import Mathlib

/-!
Verification of the Globetrotter geographic name-resolution core.

The definitions below are a shallow embedding of the matching engine found in
the map component of the repository:
- `normalizeCountryName` and `countriesMatch` embed the functions of the same
  names from the WebView script (the spec calls the latter `namesMatch`);
- `isVisitedCountry`, `regionHighlighted` and `computeHighlightSet` embed the
  feature-scanning logic of `loadPolygons`;
- `isRegionVisited` is modelled from the spec, since its definition is not
  among the provided sources (only its call site is).

JavaScript string primitives used by the source (`toLowerCase`, `trim`,
`includes`, `length`, truthiness of strings) are given explicit executable
definitions over `List Char`; `toLowerCase` is modelled on the ASCII letters,
which covers the whole vocabulary the program manipulates.
-/

namespace Globetrotter

/-- ASCII whitespace recognised by the model of JavaScript `trim`. -/
def isWsChar (c : Char) : Bool :=
  c = ' ' || c = '\t' || c = '\n' || c = '\r' || c = '\x0b' || c = '\x0c'

/-- Uppercase-to-lowercase table for the ASCII letters. -/
def upperLowerTable : List (Char × Char) :=
  [('A','a'), ('B','b'), ('C','c'), ('D','d'), ('E','e'), ('F','f'), ('G','g'),
   ('H','h'), ('I','i'), ('J','j'), ('K','k'), ('L','l'), ('M','m'), ('N','n'),
   ('O','o'), ('P','p'), ('Q','q'), ('R','r'), ('S','s'), ('T','t'), ('U','u'),
   ('V','v'), ('W','w'), ('X','x'), ('Y','y'), ('Z','z')]

/-- Model of JavaScript `toLowerCase` on a single character (ASCII range). -/
def lowerChar (c : Char) : Char :=
  ((upperLowerTable.find? (fun p => p.1 = c)).map (fun p => p.2)).getD c

/-- Model of JavaScript `String.prototype.toLowerCase` (ASCII range). -/
def lowerStr (s : String) : String :=
  ⟨s.data.map lowerChar⟩

/-- Remove leading and trailing whitespace from a character list. -/
def trimChars (l : List Char) : List Char :=
  ((l.dropWhile isWsChar).reverse.dropWhile isWsChar).reverse

/-- Model of JavaScript `String.prototype.trim`. -/
def trimStr (s : String) : String :=
  ⟨trimChars s.data⟩

/-- The composite `name.toLowerCase().trim()` used by `normalizeCountryName`. -/
def toLowerTrim (s : String) : String :=
  trimStr (lowerStr s)

/-- Boolean prefix test on character lists. -/
def isPrefixOfChars : List Char → List Char → Bool
  | [], _ => true
  | _ :: _, [] => false
  | a :: as, b :: bs => a = b && isPrefixOfChars as bs

/-- Boolean contiguous-substring test: `isSubChars small big` holds when
`small` occurs contiguously inside `big`. -/
def isSubChars (small : List Char) : List Char → Bool
  | [] => isPrefixOfChars small []
  | b :: bs => isPrefixOfChars small (b :: bs) || isSubChars small bs

/-- Model of JavaScript `big.includes(small)`. -/
def strContains (big small : String) : Bool :=
  isSubChars small.data big.data

/-- The `countryMappings` object literal of `normalizeCountryName`, kept in
source order. -/
def countryMappings : List (String × String) :=
  [("serbia", "republic of serbia"),
   ("republic of serbia", "serbia"),
   ("usa", "united states"),
   ("united states", "united states of america"),
   ("united states of america", "usa"),
   ("america", "united states"),
   ("uk", "united kingdom"),
   ("united kingdom", "britain"),
   ("britain", "united kingdom"),
   ("great britain", "united kingdom"),
   ("russia", "russian federation"),
   ("russian federation", "russia"),
   ("czechia", "czech republic"),
   ("czech republic", "czechia"),
   ("south korea", "republic of korea"),
   ("republic of korea", "south korea"),
   ("north korea", "democratic people\x27s republic of korea"),
   ("iran", "islamic republic of iran"),
   ("islamic republic of iran", "iran"),
   ("congo", "democratic republic of the congo"),
   ("drc", "democratic republic of the congo"),
   ("vatican", "vatican city"),
   ("vatican city", "holy see")]

/-- Property lookup `countryMappings[normalized]` (own keys only). -/
def lookupAlias (n : String) : Option String :=
  (countryMappings.find? (fun p => p.1 = n)).map (fun p => p.2)

/-- Embedding of `normalizeCountryName` from the WebView script: empty input
maps to the empty string, otherwise lowercase, trim and apply one alias-table
hop (`countryMappings[normalized] || normalized`). -/
def normalizeCountryName (name : String) : String :=
  if name = "" then ""
  else
    let normalized := toLowerTrim name
    (lookupAlias normalized).getD normalized

/-- Embedding of `countriesMatch` from the WebView script (the `namesMatch`
of the spec): empty-input guard, direct match of the normalized forms, the
two cross-checks that apply one further normalization pass, and the two
containment checks with 4-character floor and Romania/Oman denylist guard. -/
def countriesMatch (name1 name2 : String) : Bool :=
  if name1 = "" ∨ name2 = "" then false
  else
    let norm1 := normalizeCountryName name1
    let norm2 := normalizeCountryName name2
    if norm1 = norm2 then true
    else if normalizeCountryName norm1 = norm2 then true
    else if normalizeCountryName norm2 = norm1 then true
    else if strContains norm1 norm2 = true ∧ 4 ≤ norm2.length then
      if norm2 = "oman" ∧ norm1 = "romania" then false else true
    else if strContains norm2 norm1 = true ∧ 4 ≤ norm1.length then
      if norm1 = "oman" ∧ norm2 = "romania" then false else true
    else false

/-- The body of `countriesMatch` after the empty-input guard, as a function
of the two first-pass normalized names; `countriesMatch_eq` below proves by
`rfl` that `countriesMatch` is the guard followed by this body. -/
def matchBody (m1 m2 : String) : Bool :=
  if m1 = m2 then true
  else if normalizeCountryName m1 = m2 then true
  else if normalizeCountryName m2 = m1 then true
  else if strContains m1 m2 = true ∧ 4 ≤ m2.length then
    if m2 = "oman" ∧ m1 = "romania" then false else true
  else if strContains m2 m1 = true ∧ 4 ≤ m1.length then
    if m1 = "oman" ∧ m2 = "romania" then false else true
  else false

/-- Properties record of a GeoJSON feature. The boundary datasets expose the
name of a feature under varying keys; the source probes exactly these ten,
so the embedding carries each as an optional string (absent key = `none`). -/
structure GeoProperties where
  name : Option String
  ADMIN : Option String
  NAME : Option String
  NAME_EN : Option String
  name_en : Option String
  NAME_1 : Option String
  admin : Option String
  NAME_0 : Option String
  admin_0 : Option String
  country : Option String
deriving DecidableEq

/-- Model of a JavaScript `a || b || c` chain over possibly-absent string
properties: the first value that is present and non-empty, if any. -/
def firstTruthy (fields : List (Option String)) : Option String :=
  fields.findSome? fun o => o.bind fun s => if s = "" then none else some s

/-- Country-name probe of the country scan in `loadPolygons`:
`properties.name || ADMIN || NAME || NAME_EN || name_en`. -/
def countryNameOf (p : GeoProperties) : Option String :=
  firstTruthy [p.name, p.ADMIN, p.NAME, p.NAME_EN, p.name_en]

/-- Region-name probe of the admin-1 scan in `loadPolygons`:
`properties.name || NAME || NAME_1 || name_en || NAME_EN`. -/
def regionNameOf (p : GeoProperties) : Option String :=
  firstTruthy [p.name, p.NAME, p.NAME_1, p.name_en, p.NAME_EN]

/-- Country probe of the admin-1 scan in `loadPolygons`:
`properties.admin || ADMIN || NAME_0 || admin_0 || country`. -/
def regionCountryOf (p : GeoProperties) : Option String :=
  firstTruthy [p.admin, p.ADMIN, p.NAME_0, p.admin_0, p.country]

/-- Per-feature country test of `loadPolygons`: the loop over
`visitedCountries` with early `break` is `any`; an absent or empty country
name makes every `countriesMatch` call return false via its input guard. -/
def isVisitedCountry (visitedCountries : List String) (p : GeoProperties) : Bool :=
  match countryNameOf p with
  | none => false
  | some n => visitedCountries.any fun v => countriesMatch n v

/-- Modelled from the spec: `isRegionVisited` is called by the admin-1 scan of
`loadPolygons` in `MapView.tsx` but its definition is not among the provided
sources. Spec section 4.4: for each (region, country) pair in the visited set
the candidate matches only if `namesMatch` succeeds independently on both the
region and the country component. -/
def isRegionVisited (visitedRegions : List (String × String))
    (regionName countryName : String) : Bool :=
  visitedRegions.any fun rc =>
    countriesMatch regionName rc.1 && countriesMatch countryName rc.2

/-- Per-feature region test of the admin-1 scan:
`if (regionName && countryName && isRegionVisited(regionName, countryName))`. -/
def regionHighlighted (visitedRegions : List (String × String))
    (p : GeoProperties) : Bool :=
  match regionNameOf p, regionCountryOf p with
  | some r, some c => isRegionVisited visitedRegions r c
  | _, _ => false

/-- The highlight selection of `loadPolygons`: every country feature passing
the per-feature country test, and — only when the visited-region set is
non-empty, as in the source — every admin-1 feature passing the region test.
Each feature is decided independently, so the scan is a filter. -/
def computeHighlightSet (visitedCountries : List String)
    (visitedRegions : List (String × String))
    (countryFeatures regionFeatures : List GeoProperties) :
    List GeoProperties × List GeoProperties :=
  (countryFeatures.filter (fun p => isVisitedCountry visitedCountries p),
   if visitedRegions = [] then []
   else regionFeatures.filter (fun p => regionHighlighted visitedRegions p))

/-- All ten probed property fields of a feature are absent or empty, i.e. the
feature carries no usable name: every `||` probe in the source evaluates to a
falsy value on such a feature. -/
def allNameFieldsBlank (p : GeoProperties) : Prop :=
  (p.name = none ∨ p.name = some "") ∧
  (p.ADMIN = none ∨ p.ADMIN = some "") ∧
  (p.NAME = none ∨ p.NAME = some "") ∧
  (p.NAME_EN = none ∨ p.NAME_EN = some "") ∧
  (p.name_en = none ∨ p.name_en = some "") ∧
  (p.NAME_1 = none ∨ p.NAME_1 = some "") ∧
  (p.admin = none ∨ p.admin = some "") ∧
  (p.NAME_0 = none ∨ p.NAME_0 = some "") ∧
  (p.admin_0 = none ∨ p.admin_0 = some "") ∧
  (p.country = none ∨ p.country = some "")

section SubstringLemmas

theorem isPrefixOfChars_iff (s l : List Char) :
    isPrefixOfChars s l = true ↔ ∃ t, l = s ++ t := by
  induction s generalizing l with
  | nil =>
    simp [isPrefixOfChars]
  | cons a as ih =>
    cases l with
    | nil =>
      simp [isPrefixOfChars]
    | cons b bs =>
      simp only [isPrefixOfChars, Bool.and_eq_true, decide_eq_true_eq, ih,
        List.cons_append]
      constructor
      · rintro ⟨rfl, t, rfl⟩
        exact ⟨t, rfl⟩
      · rintro ⟨t, h⟩
        injection h with h1 h2
        exact ⟨h1.symm, t, h2⟩

theorem isSubChars_iff (s l : List Char) :
    isSubChars s l = true ↔ ∃ p q, l = p ++ s ++ q := by
  induction l with
  | nil =>
    simp only [isSubChars, isPrefixOfChars_iff]
    constructor
    · rintro ⟨t, ht⟩
      exact ⟨[], t, by simpa using ht⟩
    · rintro ⟨p, q, h⟩
      rcases List.append_eq_nil.1 (List.append_eq_nil.1 h.symm).1 with ⟨rfl, rfl⟩
      exact ⟨q, by simpa using h⟩
  | cons b bs ih =>
    simp only [isSubChars, Bool.or_eq_true, isPrefixOfChars_iff, ih]
    constructor
    · rintro (⟨t, ht⟩ | ⟨p, q, hq⟩)
      · exact ⟨[], t, by simpa using ht⟩
      · exact ⟨b :: p, q, by simp [hq]⟩
    · rintro ⟨p, q, h⟩
      cases p with
      | nil =>
        exact Or.inl ⟨q, by simpa using h⟩
      | cons c p =>
        rw [List.cons_append, List.cons_append] at h
        injection h with h1 h2
        exact Or.inr ⟨p, q, h2⟩

theorem isSubChars_length_le (s l : List Char) (h : isSubChars s l = true) :
    s.length ≤ l.length := by
  rcases (isSubChars_iff s l).1 h with ⟨p, q, rfl⟩
  simp [List.length_append]
  omega

theorem isSubChars_antisymm (s l : List Char) (h1 : isSubChars s l = true)
    (h2 : isSubChars l s = true) : s = l := by
  rcases (isSubChars_iff s l).1 h1 with ⟨p, q, rfl⟩
  have hlen := isSubChars_length_le _ _ h2
  simp [List.length_append] at hlen
  have hp : p = [] := List.length_eq_zero.1 (by omega)
  have hq : q = [] := List.length_eq_zero.1 (by omega)
  subst hp
  subst hq
  simp

theorem string_data_inj {a b : String} (h : a.data = b.data) : a = b :=
  String.ext h

theorem strContains_antisymm (a b : String) (h1 : strContains a b = true)
    (h2 : strContains b a = true) : a = b := by
  exact string_data_inj (isSubChars_antisymm b.data a.data h1 h2).symm

end SubstringLemmas

section CharLemmas

theorem table_values_fixed : ∀ p ∈ upperLowerTable, lowerChar p.2 = p.2 := by decide

theorem table_not_ws : ∀ p ∈ upperLowerTable,
    isWsChar p.1 = false ∧ isWsChar p.2 = false := by decide

theorem lowerChar_idem (c : Char) : lowerChar (lowerChar c) = lowerChar c := by
  cases hf : upperLowerTable.find? (fun p => p.1 = c) with
  | none =>
    have h : lowerChar c = c := by simp [lowerChar, hf]
    rw [h, h]
  | some p =>
    have h : lowerChar c = p.2 := by simp [lowerChar, hf]
    rw [h]
    exact table_values_fixed p (List.mem_of_find?_eq_some hf)

theorem isWs_lowerChar (c : Char) : isWsChar (lowerChar c) = isWsChar c := by
  cases hf : upperLowerTable.find? (fun p => p.1 = c) with
  | none =>
    simp [lowerChar, hf]
  | some p =>
    have h : lowerChar c = p.2 := by simp [lowerChar, hf]
    have hc : p.1 = c := by simpa using List.find?_some hf
    have hm := List.mem_of_find?_eq_some hf
    rw [h, (table_not_ws p hm).2, ← hc, (table_not_ws p hm).1]

end CharLemmas

section TrimLemmas

theorem dropWhile_idem (p : Char → Bool) (l : List Char) :
    (l.dropWhile p).dropWhile p = l.dropWhile p := by
  induction l with
  | nil => rfl
  | cons a t ih =>
    by_cases h : p a = true
    · simp [List.dropWhile_cons, h, ih]
    · simp [List.dropWhile_cons, h]

theorem dropWhile_append_self (p : Char → Bool) (m r : List Char)
    (h : List.dropWhile p (m ++ r) = m ++ r) : List.dropWhile p m = m := by
  cases m with
  | nil => rfl
  | cons a t =>
    rw [List.cons_append, List.dropWhile_cons] at h
    by_cases hp : p a = true
    · exfalso
      rw [if_pos hp] at h
      have hsub : List.Sublist (List.dropWhile p (t ++ r)) (t ++ r) := by
        apply List.dropWhile_sublist
      have hle := hsub.length_le
      rw [h] at hle
      simp at hle
    · simp [List.dropWhile_cons, hp]

theorem trimChars_idem (l : List Char) : trimChars (trimChars l) = trimChars l := by
  unfold trimChars
  have h1 : List.dropWhile isWsChar
      (((l.dropWhile isWsChar).reverse.dropWhile isWsChar).reverse) =
      ((l.dropWhile isWsChar).reverse.dropWhile isWsChar).reverse := by
    have hl1eq : l.dropWhile isWsChar =
        ((l.dropWhile isWsChar).reverse.dropWhile isWsChar).reverse ++
          ((l.dropWhile isWsChar).reverse.takeWhile isWsChar).reverse := by
      calc l.dropWhile isWsChar
          = (l.dropWhile isWsChar).reverse.reverse := by
            rw [List.reverse_reverse]
        _ = ((l.dropWhile isWsChar).reverse.takeWhile isWsChar ++
              (l.dropWhile isWsChar).reverse.dropWhile isWsChar).reverse := by
            rw [List.takeWhile_append_dropWhile]
        _ = ((l.dropWhile isWsChar).reverse.dropWhile isWsChar).reverse ++
              ((l.dropWhile isWsChar).reverse.takeWhile isWsChar).reverse := by
            rw [List.reverse_append]
    have hfix := dropWhile_idem isWsChar l
    rw [hl1eq] at hfix
    exact dropWhile_append_self _ _ _ hfix
  rw [h1, List.reverse_reverse, dropWhile_idem]

theorem dropWhile_map_comm (l : List Char) :
    List.dropWhile isWsChar (l.map lowerChar) =
      (List.dropWhile isWsChar l).map lowerChar := by
  induction l with
  | nil => rfl
  | cons a t ih =>
    rw [List.map_cons, List.dropWhile_cons, List.dropWhile_cons, isWs_lowerChar a]
    by_cases h : isWsChar a = true
    · simp [h, ih]
    · simp [h]

theorem trim_lower_comm (l : List Char) :
    trimChars (l.map lowerChar) = (trimChars l).map lowerChar := by
  unfold trimChars
  rw [dropWhile_map_comm, ← List.map_reverse, dropWhile_map_comm, ← List.map_reverse]

theorem lower_lower (l : List Char) :
    (l.map lowerChar).map lowerChar = l.map lowerChar := by
  rw [List.map_map]
  have h : lowerChar ∘ lowerChar = lowerChar := funext lowerChar_idem
  rw [h]

theorem toLowerTrim_idem (s : String) :
    toLowerTrim (toLowerTrim s) = toLowerTrim s := by
  show String.mk (trimChars ((trimChars (s.data.map lowerChar)).map lowerChar)) =
    String.mk (trimChars (s.data.map lowerChar))
  rw [← trim_lower_comm, lower_lower, trimChars_idem]

end TrimLemmas

section NormalizeLemmas

theorem alias_values_fixed : ∀ p ∈ countryMappings, toLowerTrim p.2 = p.2 := by decide

theorem toLowerTrim_normalize_fixed (x : String) :
    toLowerTrim (normalizeCountryName x) = normalizeCountryName x := by
  unfold normalizeCountryName
  by_cases hx : x = ""
  · simp only [hx, if_pos rfl]
    decide
  · simp only [hx, if_neg, ite_false]
    cases hf : lookupAlias (toLowerTrim x) with
    | none =>
      simp only [hf, Option.getD_none]
      exact toLowerTrim_idem x
    | some v =>
      simp only [hf, Option.getD_some]
      rcases Option.map_eq_some'.1 hf with ⟨p, hfind, hp2⟩
      rw [← hp2]
      exact alias_values_fixed p (List.mem_of_find?_eq_some hfind)

end NormalizeLemmas

section MatcherLemmas

theorem countriesMatch_eq (a b : String) :
    countriesMatch a b =
      if a = "" ∨ b = "" then false
      else matchBody (normalizeCountryName a) (normalizeCountryName b) := rfl

theorem normalizeCountryName_eq (x : String) :
    normalizeCountryName x =
      if x = "" then ""
      else (lookupAlias (toLowerTrim x)).getD (toLowerTrim x) := rfl

theorem matchBody_symm (m1 m2 : String) : matchBody m1 m2 = matchBody m2 m1 := by
  unfold matchBody
  by_cases h0 : m1 = m2
  · rw [if_pos h0, if_pos h0.symm]
  rw [if_neg h0, if_neg (Ne.symm h0)]
  by_cases h1 : normalizeCountryName m1 = m2
  · rw [if_pos h1]
    by_cases h2 : normalizeCountryName m2 = m1
    · rw [if_pos h2]
    · rw [if_neg h2, if_pos h1]
  · rw [if_neg h1]
    by_cases h2 : normalizeCountryName m2 = m1
    · rw [if_pos h2, if_pos h2]
    rw [if_neg h2, if_neg h2, if_neg h1]
    by_cases c12 : strContains m1 m2 = true ∧ 4 ≤ m2.length
    · by_cases c21 : strContains m2 m1 = true ∧ 4 ≤ m1.length
      · exact absurd (strContains_antisymm m1 m2 c12.1 c21.1) h0
      · rw [if_pos c12, if_neg c21, if_pos c12]
    · by_cases c21 : strContains m2 m1 = true ∧ 4 ≤ m1.length
      · rw [if_neg c12, if_pos c21, if_pos c21]
      · rw [if_neg c12, if_neg c21, if_neg c21, if_neg c12]

theorem matchBody_true_cases (m1 m2 : String) (h : matchBody m1 m2 = true) :
    m1 = m2 ∨ normalizeCountryName m1 = m2 ∨ normalizeCountryName m2 = m1 ∨
      (strContains m1 m2 = true ∧ 4 ≤ m2.length) ∨
      (strContains m2 m1 = true ∧ 4 ≤ m1.length) := by
  unfold matchBody at h
  split_ifs at h <;> tauto

theorem normalize_all_ws (a : String) (hw : ∀ c ∈ a.data, isWsChar c = true) :
    normalizeCountryName a = "" := by
  by_cases ha : a = ""
  · rw [normalizeCountryName_eq, if_pos ha]
  · have hall : ∀ c ∈ a.data.map lowerChar, isWsChar c = true := by
      intro c hc
      rcases List.mem_map.1 hc with ⟨d, hd, rfl⟩
      rw [isWs_lowerChar]
      exact hw d hd
    have hnil : trimChars (a.data.map lowerChar) = [] := by
      unfold trimChars
      have hstep : List.dropWhile isWsChar (a.data.map lowerChar) = [] :=
        List.dropWhile_eq_nil_iff.2 (by intro x hx; exact hall x hx)
      rw [hstep]
      rfl
    have h1 : toLowerTrim a = "" := by
      show String.mk (trimChars (a.data.map lowerChar)) = ""
      rw [hnil]
    rw [normalizeCountryName_eq, if_neg ha, h1]
    decide

end MatcherLemmas

section FeatureLemmas

theorem blank_bind (o : Option String) (h : o = none ∨ o = some "") :
    (o.bind fun s => if s = "" then none else some s) = none := by
  rcases h with rfl | rfl <;> simp

theorem firstTruthy_blank (fields : List (Option String))
    (h : ∀ o ∈ fields, o = none ∨ o = some "") : firstTruthy fields = none := by
  induction fields with
  | nil => rfl
  | cons o rest ih =>
    unfold firstTruthy
    rw [List.findSome?_cons]
    simp only [blank_bind o (h o (List.mem_cons_self o rest))]
    exact ih (fun o ho => h o (List.mem_cons_of_mem _ ho))

theorem blank_countryNameOf (p : GeoProperties) (hb : allNameFieldsBlank p) :
    countryNameOf p = none := by
  obtain ⟨h1, h2, h3, h4, h5, h6, h7, h8, h9, h10⟩ := hb
  apply firstTruthy_blank
  intro o ho
  simp only [List.mem_cons, List.not_mem_nil, or_false] at ho
  rcases ho with rfl | rfl | rfl | rfl | rfl <;> assumption

theorem blank_regionNameOf (p : GeoProperties) (hb : allNameFieldsBlank p) :
    regionNameOf p = none := by
  obtain ⟨h1, h2, h3, h4, h5, h6, h7, h8, h9, h10⟩ := hb
  apply firstTruthy_blank
  intro o ho
  simp only [List.mem_cons, List.not_mem_nil, or_false] at ho
  rcases ho with rfl | rfl | rfl | rfl | rfl <;> assumption

theorem blank_regionCountryOf (p : GeoProperties) (hb : allNameFieldsBlank p) :
    regionCountryOf p = none := by
  obtain ⟨h1, h2, h3, h4, h5, h6, h7, h8, h9, h10⟩ := hb
  apply firstTruthy_blank
  intro o ho
  simp only [List.mem_cons, List.not_mem_nil, or_false] at ho
  rcases ho with rfl | rfl | rfl | rfl | rfl <;> assumption

end FeatureLemmas

/-- Claim C1: `namesMatch` is symmetric — for every pair of strings `a` and
`b`, `countriesMatch a b` returns the same boolean as `countriesMatch b a`,
including when the result is decided by the containment step or by the
denylist guard. -/
theorem namesMatch_symmetric (a b : String) :
    countriesMatch a b = countriesMatch b a := by
  rw [countriesMatch_eq, countriesMatch_eq]
  by_cases h : a = "" ∨ b = ""
  · rw [if_pos h, if_pos (Or.symm h)]
  · rw [if_neg h, if_neg (fun hc => h (Or.symm hc))]
    exact matchBody_symm _ _

/-- Claim C2, counterexample: triple normalization is not the same as double
normalization on the input Serbia, whose alias entry is one half of a
reciprocal pair, so the iterates alternate between the two spellings. -/
theorem normalize_triple_differs_serbia :
    normalizeCountryName (normalizeCountryName (normalizeCountryName ("Serbia"))) ≠
      normalizeCountryName (normalizeCountryName ("Serbia")) := by decide

/-- Claim C2 (amended): a third normalization pass changes nothing whenever
the twice-normalized value is not itself an alias-table key; for alias keys
in reciprocal pairs (such as Serbia) the iterates keep alternating and
unconditional idempotence fails. -/
theorem normalize_third_pass_stable (x : String)
    (h : lookupAlias (normalizeCountryName (normalizeCountryName x)) = none) :
    normalizeCountryName (normalizeCountryName (normalizeCountryName x)) =
      normalizeCountryName (normalizeCountryName x) := by
  by_cases hy : normalizeCountryName (normalizeCountryName x) = ""
  · rw [hy]
    decide
  · rw [normalizeCountryName_eq (normalizeCountryName (normalizeCountryName x)),
      if_neg hy, toLowerTrim_normalize_fixed (normalizeCountryName x), h]
    rfl

theorem normalize_third_pass_stable_witness :
    lookupAlias (normalizeCountryName (normalizeCountryName ("France"))) = none ∧
    normalizeCountryName (normalizeCountryName (normalizeCountryName ("France"))) =
      normalizeCountryName (normalizeCountryName ("France")) :=
  ⟨by decide, normalize_third_pass_stable ("France") (by decide)⟩

/-- Claim C3: a region-level feature is highlighted exactly when some visited
(region, country) pair makes `countriesMatch` succeed independently on both
the region component and the country component; in particular, when no
visited pair matches the region name, the feature is not highlighted even if
its country matches. -/
theorem region_match_requires_both (vr : List (String × String))
    (p : GeoProperties) (r c : String)
    (hr : regionNameOf p = some r) (hc : regionCountryOf p = some c) :
    (regionHighlighted vr p = true ↔
      ∃ rc ∈ vr, countriesMatch r rc.1 = true ∧ countriesMatch c rc.2 = true) ∧
    ((∀ rc ∈ vr, countriesMatch r rc.1 = false) → regionHighlighted vr p = false) := by
  have hmain : regionHighlighted vr p = isRegionVisited vr r c := by
    unfold regionHighlighted
    rw [hr, hc]
  constructor
  · rw [hmain]
    unfold isRegionVisited
    rw [List.any_eq_true]
    constructor
    · rintro ⟨rc, hmem, hb⟩
      rw [Bool.and_eq_true] at hb
      exact ⟨rc, hmem, hb.1, hb.2⟩
    · rintro ⟨rc, hmem, h1, h2⟩
      exact ⟨rc, hmem, by rw [Bool.and_eq_true]; exact ⟨h1, h2⟩⟩
  · intro hnone
    rw [hmain]
    unfold isRegionVisited
    cases hany : vr.any fun rc => countriesMatch r rc.1 && countriesMatch c rc.2 with
    | false => rfl
    | true =>
      rcases List.any_eq_true.1 hany with ⟨rc, hmem, hb⟩
      rw [Bool.and_eq_true] at hb
      rw [hnone rc hmem] at hb
      exact absurd hb.1 (by simp)

theorem region_match_requires_both_witness :
    regionHighlighted [(("Saxony"), ("Germany"))]
      ⟨some ("Bavaria"), none, none, none, none, none, some ("Germany"), none, none,
        none⟩ = false :=
  (region_match_requires_both [(("Saxony"), ("Germany"))]
    ⟨some ("Bavaria"), none, none, none, none, none, some ("Germany"), none, none, none⟩
    ("Bavaria") ("Germany") (by decide) (by decide)).2 (by decide)

/-- Claim C4: the denylist of known false-positive pairs overrides the
containment match in both argument orders — Romania and Oman do not match
even though the normalized form romania contains oman and oman has exactly
the floor length 4. -/
theorem denylist_overrides_containment :
    countriesMatch ("Romania") ("Oman") = false ∧
    countriesMatch ("Oman") ("Romania") = false ∧
    strContains (normalizeCountryName ("Romania")) (normalizeCountryName ("Oman")) = true ∧
    (normalizeCountryName ("Oman")).length = 4 := by decide

/-- Claim C5: a true result of `countriesMatch` is always explained by the
equality or cross-normalization steps, or by a containment whose contained
normalized operand has length at least 4 — the containment step never fires
below the 4-character floor; in particular Chad and Ch do not match. -/
theorem containment_respects_floor (a b : String) (h : countriesMatch a b = true) :
    (normalizeCountryName a = normalizeCountryName b ∨
      normalizeCountryName (normalizeCountryName a) = normalizeCountryName b ∨
      normalizeCountryName (normalizeCountryName b) = normalizeCountryName a ∨
      (strContains (normalizeCountryName a) (normalizeCountryName b) = true ∧
        4 ≤ (normalizeCountryName b).length) ∨
      (strContains (normalizeCountryName b) (normalizeCountryName a) = true ∧
        4 ≤ (normalizeCountryName a).length)) ∧
    countriesMatch ("Chad") ("Ch") = false := by
  refine ⟨?_, by decide⟩
  rw [countriesMatch_eq] at h
  by_cases hg : a = "" ∨ b = ""
  · rw [if_pos hg] at h
    exact absurd h (by simp)
  · rw [if_neg hg] at h
    exact matchBody_true_cases _ _ h

theorem containment_respects_floor_witness :
    (normalizeCountryName ("USA") = normalizeCountryName ("United States of America") ∨
      normalizeCountryName (normalizeCountryName ("USA")) =
        normalizeCountryName ("United States of America") ∨
      normalizeCountryName (normalizeCountryName ("United States of America")) =
        normalizeCountryName ("USA") ∨
      (strContains (normalizeCountryName ("USA"))
          (normalizeCountryName ("United States of America")) = true ∧
        4 ≤ (normalizeCountryName ("United States of America")).length) ∨
      (strContains (normalizeCountryName ("United States of America"))
          (normalizeCountryName ("USA")) = true ∧
        4 ≤ (normalizeCountryName ("USA")).length)) ∧
    countriesMatch ("Chad") ("Ch") = false :=
  containment_respects_floor ("USA") ("United States of America") (by decide)

/-- Claim C6: the alias table together with the second normalization pass
makes the documented synonym pairs equivalent. -/
theorem alias_synonym_pairs_match :
    countriesMatch ("USA") ("United States of America") = true ∧
    countriesMatch ("United Kingdom") ("Britain") = true ∧
    countriesMatch ("Czechia") ("Czech Republic") = true := by decide

/-- Claim C7: `countriesMatch a a` is true for every non-empty string `a`,
and `countriesMatch` is false whenever either raw argument is empty. -/
theorem reflexive_and_empty_behaviour :
    (∀ a : String, a ≠ "" → countriesMatch a a = true) ∧
    (∀ a b : String, a = "" ∨ b = "" → countriesMatch a b = false) := by
  constructor
  · intro a ha
    rw [countriesMatch_eq, if_neg (by tauto)]
    unfold matchBody
    rw [if_pos rfl]
  · intro a b h
    rw [countriesMatch_eq, if_pos h]

theorem reflexive_and_empty_behaviour_witness :
    countriesMatch ("France") ("France") = true ∧
    countriesMatch ("") ("France") = false :=
  ⟨reflexive_and_empty_behaviour.1 ("France") (by decide),
   reflexive_and_empty_behaviour.2 ("") ("France") (Or.inl rfl)⟩

/-- Claim C8: the highlight computation is invariant under permutation of the
input feature sequences — permuted inputs produce permuted (hence, as sets,
identical) country-level and region-level highlight lists. -/
theorem highlight_perm_invariant (vc : List String) (vr : List (String × String))
    (cf1 cf2 rf1 rf2 : List GeoProperties)
    (hcf : cf1.Perm cf2) (hrf : rf1.Perm rf2) :
    ((computeHighlightSet vc vr cf1 rf1).1.Perm (computeHighlightSet vc vr cf2 rf2).1 ∧
      (computeHighlightSet vc vr cf1 rf1).2.Perm (computeHighlightSet vc vr cf2 rf2).2) ∧
    ∀ p : GeoProperties,
      (p ∈ (computeHighlightSet vc vr cf1 rf1).1 ↔
        p ∈ (computeHighlightSet vc vr cf2 rf2).1) ∧
      (p ∈ (computeHighlightSet vc vr cf1 rf1).2 ↔
        p ∈ (computeHighlightSet vc vr cf2 rf2).2) := by
  have h1 : (computeHighlightSet vc vr cf1 rf1).1.Perm
      (computeHighlightSet vc vr cf2 rf2).1 := hcf.filter _
  have h2 : (computeHighlightSet vc vr cf1 rf1).2.Perm
      (computeHighlightSet vc vr cf2 rf2).2 := by
    unfold computeHighlightSet
    by_cases hvr : vr = []
    · simp [hvr]
    · simp only [if_neg hvr]
      exact hrf.filter _
  exact ⟨⟨h1, h2⟩, fun p => ⟨h1.mem_iff, h2.mem_iff⟩⟩

theorem highlight_perm_invariant_witness :
    (computeHighlightSet [("France")] [(("Bavaria"), ("Germany"))]
        [⟨some ("France"), none, none, none, none, none, none, none, none, none⟩,
         ⟨some ("Germany"), none, none, none, none, none, none, none, none, none⟩]
        [⟨some ("Bavaria"), none, none, none, none, none, some ("Germany"), none, none,
          none⟩]).1.Perm
      ((computeHighlightSet [("France")] [(("Bavaria"), ("Germany"))]
        [⟨some ("Germany"), none, none, none, none, none, none, none, none, none⟩,
         ⟨some ("France"), none, none, none, none, none, none, none, none, none⟩]
        [⟨some ("Bavaria"), none, none, none, none, none, some ("Germany"), none, none,
          none⟩]).1) :=
  (highlight_perm_invariant [("France")] [(("Bavaria"), ("Germany"))]
    [⟨some ("France"), none, none, none, none, none, none, none, none, none⟩,
     ⟨some ("Germany"), none, none, none, none, none, none, none, none, none⟩]
    [⟨some ("Germany"), none, none, none, none, none, none, none, none, none⟩,
     ⟨some ("France"), none, none, none, none, none, none, none, none, none⟩]
    [⟨some ("Bavaria"), none, none, none, none, none, some ("Germany"), none, none, none⟩]
    [⟨some ("Bavaria"), none, none, none, none, none, some ("Germany"), none, none, none⟩]
    (by decide) (by decide)).1.1

/-- Claim C9: a feature whose candidate name fields are all absent or empty
is never highlighted at either level, and the highlight computation on a
list containing it equals the computation with the feature removed — the
scan skips it silently and treats the rest unchanged. -/
theorem nameless_feature_skipped (vc : List String) (vr : List (String × String))
    (p : GeoProperties) (l1 l2 r1 r2 : List GeoProperties)
    (hb : allNameFieldsBlank p) :
    isVisitedCountry vc p = false ∧ regionHighlighted vr p = false ∧
    computeHighlightSet vc vr (l1 ++ p :: l2) (r1 ++ p :: r2) =
      computeHighlightSet vc vr (l1 ++ l2) (r1 ++ r2) := by
  have hcn : countryNameOf p = none := blank_countryNameOf p hb
  have hrn : regionNameOf p = none := blank_regionNameOf p hb
  have hrc : regionCountryOf p = none := blank_regionCountryOf p hb
  have hvisited : isVisitedCountry vc p = false := by
    unfold isVisitedCountry
    rw [hcn]
  have hregion : regionHighlighted vr p = false := by
    unfold regionHighlighted
    rw [hrn, hrc]
  refine ⟨hvisited, hregion, ?_⟩
  unfold computeHighlightSet
  by_cases hvr : vr = []
  · rw [if_pos hvr, if_pos hvr]
    rw [List.filter_append, List.filter_append]
    rw [List.filter_cons_of_neg (by simp [hvisited])]
  · rw [if_neg hvr, if_neg hvr]
    rw [List.filter_append, List.filter_append,
      List.filter_append, List.filter_append]
    rw [List.filter_cons_of_neg (by simp [hvisited]),
      List.filter_cons_of_neg (by simp [hregion])]

theorem nameless_feature_skipped_witness :
    isVisitedCountry [("France")]
      ⟨none, none, none, none, none, none, none, none, none, none⟩ = false :=
  (nameless_feature_skipped [("France")] [(("Bavaria"), ("Germany"))]
    ⟨none, none, none, none, none, none, none, none, none, none⟩ [] [] [] []
    ⟨Or.inl rfl, Or.inl rfl, Or.inl rfl, Or.inl rfl, Or.inl rfl, Or.inl rfl,
      Or.inl rfl, Or.inl rfl, Or.inl rfl, Or.inl rfl⟩).1

/-- Claim C10: two raw inputs that are non-empty but consist only of
whitespace are reported as matching — both normalize to the empty string and
the direct-equality step fires before any emptiness check on the normalized
values. -/
theorem whitespace_only_inputs_match (a b : String) (ha : a ≠ "") (hb : b ≠ "")
    (hwa : ∀ c ∈ a.data, isWsChar c = true) (hwb : ∀ c ∈ b.data, isWsChar c = true) :
    countriesMatch a b = true := by
  rw [countriesMatch_eq, if_neg (by tauto)]
  unfold matchBody
  rw [normalize_all_ws a hwa, normalize_all_ws b hwb, if_pos rfl]

theorem whitespace_only_inputs_match_witness :
    countriesMatch (" ") ("  ") = true :=
  whitespace_only_inputs_match (" ") ("  ") (by decide) (by decide)
    (by decide) (by decide)

end Globetrotter
